import Mathlib

/-!
# Verification of the email triage and HITL assistant workflows

Shallow embedding of the TypeScript email-assistant repository
(`langchain-ai/agents-from-scratch-ts`).  The embedding covers:

* the HITL triage router, triage interrupt handler, LLM-call node and
  tool-review interrupt handler of `src/email_assistant_hitl.ts`;
* the basic triage router of `scripts/email_assistant.ts`;
* the memory-enabled triage router, `getMemory` and `updateMemory` of
  `scripts/email_assistant_hitl_memory.ts`;
* the shared `parseEmail` utility (multi-schema email parser);
* small-step workflow machines for the basic and HITL graph variants.

External collaborators (the hosted LLM, the human reviewer, the mock
tools, `JSON.parse`, `Date.now`) are modelled as oracle inputs: an LLM
call is an `Except`-valued argument (`.error` models a thrown exception),
a tool invocation is a function argument, `Date.now` is a `Nat` argument
held constant during one node invocation, and a `JSON.parse`d argument
object is identified by its serialization string.
-/

deriving instance DecidableEq for Except

namespace EmailAssistant

/-! ## JavaScript string primitives (String.prototype.includes, toLowerCase, trim) -/

/-- Test that `pat` is a prefix of `s` (character lists). -/
def startsWithChars : List Char → List Char → Bool
  | [], _ => true
  | _ :: _, [] => false
  | a :: as, b :: bs => a == b && startsWithChars as bs

/-- Test that `pat` occurs somewhere in `s` (character lists). -/
def hasSubstrChars : List Char → List Char → Bool
  | [], pat => pat.isEmpty
  | s@(_ :: t), pat => startsWithChars pat s || hasSubstrChars t pat

/-- JavaScript `s.includes(pat)`. -/
def strContains (s pat : String) : Bool :=
  hasSubstrChars s.data pat.data

/-- JavaScript `s.toLowerCase()` (ASCII, which covers the triage keywords). -/
def jsToLower (s : String) : String :=
  String.mk (s.data.map Char.toLower)

/-- Whitespace recognised by `trim`. -/
def isWS (c : Char) : Bool :=
  c == ' ' || c == '\t' || c == '\n' || c == '\r'

/-- JavaScript `s.trim()`. -/
def jsTrim (s : String) : String :=
  String.mk (((s.data.dropWhile isWS).reverse.dropWhile isWS).reverse)

/-! ## Data model: tool calls, messages, email records -/

/-- A parsed JSON argument object, identified by its serialization.
`JSON.parse` of a string `s` is modelled as the object whose
serialization is `s`. -/
structure ArgObj where
  dump : String
deriving DecidableEq, Repr

/-- A tool call's `args` field: either a JSON string still to be parsed
or an already-parsed object (the two cases of
`typeof toolCall.args === "string"` in the source). -/
inductive ArgVal where
  | str (s : String)
  | obj (o : ArgObj)
deriving DecidableEq, Repr

/-- Model of `typeof args === "string" ? JSON.parse(args) : args` from the source. -/
def parseToolCallArgs : ArgVal → ArgObj
  | .str s => ⟨s⟩
  | .obj o => o

/-- A tool call attached to an AI message. -/
structure ToolCall where
  name : String
  args : ArgVal
  id : Option String
deriving DecidableEq, Repr

/-- A transcript message (role-tagged, with optional tool-response id and
tool calls). -/
structure Msg where
  role : String
  content : String
  tool_call_id : Option String := none
  tool_calls : List ToolCall := []
deriving DecidableEq, Repr

def toolMsg (content cid : String) : Msg :=
  { role := "tool", content := content, tool_call_id := some cid }

def humanMsg (content : String) : Msg :=
  { role := "human", content := content }

def systemMsg (content : String) : Msg :=
  { role := "system", content := content }

/-- The `EmailData` record of `src/schemas.ts` (the fields `parseEmail`
reads). -/
structure EmailData where
  from_email : String
  to_email : String
  subject : String
  page_content : String
deriving DecidableEq, Repr

/-- Result of `parseEmail` in `src/utils.ts`. -/
structure ParsedEmail where
  author : String
  «to» : String
  subject : String
  emailThread : String
deriving DecidableEq, Repr

/-- Model of `parseEmail` in `src/utils.ts`: it reads the four fields of an
`EmailData`; on a non-object input (`none`) the field access throws and
the catch rethrows `Failed to parse email`. -/
def parseEmailSrc : Option EmailData → Except String ParsedEmail
  | some e => .ok ⟨e.from_email, e.to_email, e.subject, e.page_content⟩
  | none => .error "Failed to parse email"

/-- Model of `formatEmailMarkdown` in `src/utils.ts`. -/
def formatEmailMarkdownSrc (subject author «to» emailThread : String) : String :=
  "## Email: " ++ subject ++ "\n\n**From**: " ++ author ++ "\n**To**: " ++ «to»
    ++ "\n\n" ++ emailThread

/-! ## Human review input -/

/-- The `args` of a `HumanResponse`: `null`, a string, or an object. -/
inductive ReviewData where
  | null
  | str (s : String)
  | obj (o : ArgObj)
deriving DecidableEq, Repr

/-- The human-review input `{type, args}`. -/
structure HumanResponse where
  type : String
  args : ReviewData
deriving DecidableEq, Repr

/-- JavaScript truthiness of a review payload (`null` and the empty
string are falsy). -/
def truthyReviewData : ReviewData → Bool
  | .null => false
  | .str s => !s.isEmpty
  | .obj _ => true

/-- String interpolation of a review payload into a template literal. -/
def reviewDataToString : ReviewData → String
  | .null => "null"
  | .str s => s
  | .obj _ => "[object Object]"

/-! ## Tool environment -/

/-- The tool registry (`toolsByName`) and tool execution
(`tool.invoke`), as an oracle: `invoke` returns the observation string
or a thrown error. -/
structure ToolEnv where
  registered : List String
  invoke : String → ArgObj → Except String String

/-- A record of one tool execution performed by a node. -/
structure ToolExec where
  tool : String
  args : ArgObj
deriving DecidableEq, Repr

/-! ## HITL triage router (`triageRouterNode` in `src/email_assistant_hitl.ts`) -/

/-- Routing target returned in a node's `Command`. -/
inductive Goto where
  | llm_call
  | interrupt_handler
  | response_agent
  | triage_interrupt_handler
  | endNode
deriving DecidableEq, Repr

/-- Keyword classification of the LLM response text, lines 431-448 of
`src/email_assistant_hitl.ts`:
`(response.content || "").toString().toLowerCase().trim()`, then ordered
`includes` checks with fallback `notify`. -/
def hitlClassify (content : String) : String :=
  if strContains (jsTrim (jsToLower content)) "respond" then "respond"
  else if strContains (jsTrim (jsToLower content)) "notify" then "notify"
  else if strContains (jsTrim (jsToLower content)) "ignore" then "ignore"
  else "notify"

/-- The `Command` produced by a triage router: routing target,
`classification_decision` update, and messages update. -/
structure RouterResult where
  goto : Goto
  classification_decision : Option String
  messages : List Msg
deriving DecidableEq, Repr

/-- The catch branch of the HITL triage router (also used verbatim by the
memory variant): classification `error`, explanatory system message,
goto `END`. -/
def routerCatch (e : String) : RouterResult :=
  ⟨.endNode, some "error", [systemMsg ("Error in triage router: " ++ e)]⟩

/-- Model of `triageRouterNode` in `src/email_assistant_hitl.ts`.  The LLM call is
the oracle `triageLLM` (`.error` = the call threw).  The whole body is in
a `try`/`catch`; email-parse failures and LLM failures reach the catch. -/
def triageRouterNode (triageLLM : Except String String)
    (email_input : Option EmailData) : RouterResult :=
  match parseEmailSrc email_input with
  | .error e => routerCatch e
  | .ok pe =>
    match triageLLM with
    | .error e => routerCatch e
    | .ok content =>
      let classification := hitlClassify content
      let emailMarkdown := formatEmailMarkdownSrc pe.subject pe.author pe.«to» pe.emailThread
      if classification == "respond" then
        ⟨.response_agent, some "respond",
          [humanMsg ("Respond to the email: " ++ emailMarkdown)]⟩
      else if classification == "notify" then
        ⟨.triage_interrupt_handler, some "notify", []⟩
      else if classification == "ignore" then
        ⟨.endNode, some "ignore", []⟩
      else
        -- dead fallback in the source ("shouldn't reach here")
        ⟨.triage_interrupt_handler, some "notify", []⟩

/-! ## HITL tool-review interrupt handler
(`interruptHandlerNode` in `src/email_assistant_hitl.ts`) -/

/-- The tools routed through human review, line 187 of
`src/email_assistant_hitl.ts`. -/
def hitlTools : List String := ["write_email", "schedule_meeting", "question"]

/-- Call id of a tool call: `toolCall.id`, or the fallback id built from
`Date.now()` when the id is missing; `Date.now()` is the
`now` argument, held constant during one node invocation. -/
def callIdOf (now : Nat) (tc : ToolCall) : String :=
  tc.id.getD ("fallback-id-" ++ toString now)

/-- The fallback loop at the end of the handler: a deferred-execution
tool message for every tool call whose call id is not in the processed
set. -/
def deferredMsgs (now : Nat) (processed : List String) (tcs : List ToolCall) : List Msg :=
  tcs.filterMap fun tc =>
    let cid := callIdOf now tc
    if processed.contains cid then none
    else some (toolMsg "Tool execution deferred or pending subsequent review step." cid)

/-- Direct execution of a non-HITL tool call (lines 189-222): missing
tool yields an error message; otherwise the tool is invoked inside a
`try`/`catch`.  Returns the tool message and the executions performed. -/
def execToolCall (env : ToolEnv) (cid : String) (tc : ToolCall) : Msg × List ToolExec :=
  if env.registered.contains tc.name then
    match env.invoke tc.name (parseToolCallArgs tc.args) with
    | .ok obs => (toolMsg obs cid, [⟨tc.name, parseToolCallArgs tc.args⟩])
    | .error e => (toolMsg ("Error executing tool: " ++ e) cid, [⟨tc.name, parseToolCallArgs tc.args⟩])
  else
    (toolMsg ("Error: Tool " ++ tc.name ++ " not found") cid, [])

/-- The content of the feedback tool message in the `response` review
branch (lines 261-290), dispatched on the tool name (source text copied
verbatim, typos included). -/
def feedbackContent (toolName feedback : String) : String :=
  if toolName == "write_email" then
    "User gave feedback, which can we incorporate into the email. Feedback: " ++ feedback
  else if toolName == "schedule_meeting" then
    "User gave feedback, which can we incorporate into the meeting request. Feedback: " ++ feedback
  else if toolName == "question" then
    "User answered the question, which can we can use for any follow up actions. Feedback: " ++ feedback
  else
    "Unexpected tool: " ++ toolName

/-- The `Command` (plus observable events) produced by the tool-review
interrupt handler: routing target, messages update, tool executions
performed, and the names of tool calls for which `interrupt()` was
invoked. -/
structure HandlerResult where
  goto : Goto
  messages : List Msg
  execs : List ToolExec
  interrupts : List String
deriving DecidableEq, Repr

/-- Model of `interruptHandlerNode` in `src/email_assistant_hitl.ts` (lines
150-370).  Oracles: `env` (tool registry and execution), `review` (the
human response returned by `interrupt()`), `now` (`Date.now()`).  An
`.error` result models an exception escaping the node (the HITL branch
is deliberately not wrapped in `try`/`catch` in the source).  The loop
over `lastMessage.tool_calls` processes exactly the first tool call and
then breaks; the fallback loop appends deferred messages for unprocessed
call ids. -/
def interruptHandlerNode (env : ToolEnv) (review : HumanResponse) (now : Nat)
    (email_input : Option EmailData) (messages : List Msg) :
    Except String HandlerResult :=
  match messages.getLast? with
  | none => .error "TypeError: cannot read properties of undefined"
  | some lastMessage =>
    if !(lastMessage.role == "ai") || lastMessage.tool_calls.isEmpty then
      .ok { goto := .llm_call, messages := [], execs := [], interrupts := [] }
    else
      match lastMessage.tool_calls with
      | [] => .ok { goto := .llm_call, messages := [], execs := [], interrupts := [] }
      | tc :: rest =>
        let cid := callIdOf now tc
        if !(hitlTools.contains tc.name) then
          .ok { goto := .llm_call,
                messages := (execToolCall env cid tc).1 :: deferredMsgs now [cid] (tc :: rest),
                execs := (execToolCall env cid tc).2,
                interrupts := [] }
        else
          match parseEmailSrc email_input with
          | .error e => .error e
          | .ok _pe =>
            -- interrupt() is invoked here: human review of `tc`
            if review.type == "response" then
              match review.args with
              | .str s =>
                .ok { goto := .llm_call,
                      messages := toolMsg (feedbackContent tc.name s) cid
                        :: deferredMsgs now [cid] (tc :: rest),
                      execs := [],
                      interrupts := [tc.name] }
              | _ =>
                .ok { goto := .llm_call,
                      messages := toolMsg ("Unhandled review action: " ++ review.type) cid
                        :: deferredMsgs now [cid] (tc :: rest),
                      execs := [],
                      interrupts := [tc.name] }
            else if review.type == "accept" then
              if env.registered.contains tc.name then
                match env.invoke tc.name (parseToolCallArgs tc.args) with
                | .ok obs =>
                  .ok { goto := .llm_call,
                        messages := toolMsg obs cid :: deferredMsgs now [cid] (tc :: rest),
                        execs := [⟨tc.name, parseToolCallArgs tc.args⟩],
                        interrupts := [tc.name] }
                | .error e => .error e
              else .error ("TypeError: tool " ++ tc.name ++ " is undefined")
            else if review.type == "edit" then
              match review.args with
              | .obj o =>
                if env.registered.contains tc.name then
                  match env.invoke tc.name o with
                  | .ok obs =>
                    .ok { goto := .llm_call,
                          messages := toolMsg obs cid :: deferredMsgs now [cid] (tc :: rest),
                          execs := [⟨tc.name, o⟩],
                          interrupts := [tc.name] }
                  | .error e => .error e
                else .error ("TypeError: tool " ++ tc.name ++ " is undefined")
              | _ =>
                .ok { goto := .llm_call,
                      messages := toolMsg ("Unhandled review action: " ++ review.type) cid
                        :: deferredMsgs now [cid] (tc :: rest),
                      execs := [],
                      interrupts := [tc.name] }
            else if review.type == "ignore" then
              .ok { goto := .endNode,
                    messages := toolMsg ("User chose to ignore this " ++ tc.name ++ " action.") cid
                      :: deferredMsgs now [cid] (tc :: rest),
                    execs := [],
                    interrupts := [tc.name] }
            else
              .ok { goto := .llm_call,
                    messages := toolMsg ("Unhandled review action: " ++ review.type) cid
                      :: deferredMsgs now [cid] (tc :: rest),
                    execs := [],
                    interrupts := [tc.name] }

/-! ## HITL triage interrupt handler and LLM-call node -/

/-- The `Command` produced by the triage interrupt handler. -/
structure TriageIntResult where
  goto : Goto
  messages : List Msg
deriving DecidableEq, Repr

/-- Model of `triageInterruptHandlerNode` in `src/email_assistant_hitl.ts` (lines
513-587).  `interrupt()` is always invoked once the email parses; the
human response selects the branch.  A `response` with truthy payload
routes to the response agent; `ignore` and anything unhandled end. -/
def triageInterruptHandlerNode (review : HumanResponse)
    (email_input : Option EmailData) : Except String TriageIntResult :=
  match parseEmailSrc email_input with
  | .error e => .error e
  | .ok pe =>
    let emailMarkdown := formatEmailMarkdownSrc pe.subject pe.author pe.«to» pe.emailThread
    let initialMessages := [humanMsg ("Email to notify user about: " ++ emailMarkdown)]
    -- interrupt() is invoked here
    if review.type == "response" && truthyReviewData review.args then
      .ok ⟨.response_agent,
        initialMessages
          ++ [humanMsg ("User wants to reply to the email. Use this feedback to respond: "
                ++ reviewDataToString review.args)]⟩
    else if review.type == "ignore" then
      .ok ⟨.endNode, initialMessages⟩
    else
      .ok ⟨.endNode,
        initialMessages
          ++ [systemMsg ("Unhandled review action: " ++ review.type ++ ". Ending triage.")]⟩

/-- Model of `llmCallNode` in `src/email_assistant_hitl.ts`: the LLM result, or
an AI error message if the call threw (the body is in `try`/`catch`). -/
def llmCallNode (agentLLM : Except String Msg) : List Msg :=
  match agentLLM with
  | .ok m => [m]
  | .error e => [{ role := "ai", content := "Error calling model: " ++ e }]

/-- Model of `shouldContinue` in `src/email_assistant_hitl.ts`: route to the
interrupt handler when the last message has tool calls and none of them
is `Done`. -/
def shouldContinue (messages : List Msg) : Goto :=
  match messages.getLast? with
  | none => .endNode
  | some m =>
    if m.role == "ai" && !m.tool_calls.isEmpty then
      if m.tool_calls.any (fun tc => tc.name == "Done") then .endNode
      else .interrupt_handler
    else .endNode

/-! ## Shared `parseEmail` of the scripts (`lib/utils`) -/

/-- A JavaScript field value as read off a `Record<string, any>` email
input: a string or `undefined`. -/
inductive JsVal where
  | vstr (s : String)
  | vundefined
deriving DecidableEq, Repr

/-- JavaScript truthiness (`undefined` and `""` are falsy). -/
def truthyJs : JsVal → Bool
  | .vstr s => !s.isEmpty
  | .vundefined => false

/-- JavaScript `a || b`. -/
def orJs (a b : JsVal) : JsVal :=
  if truthyJs a then a else b

/-- Interpolation of a field value into a template literal. -/
def jsValToString : JsVal → String
  | .vstr s => s
  | .vundefined => "undefined"

/-- An email input object: a field map (key presence models the JS `in`
operator). -/
abbrev EmailInput := List (String × JsVal)

def hasField (e : EmailInput) (k : String) : Bool :=
  (List.find? (fun p => p.1 == k) e).isSome

def getField (e : EmailInput) (k : String) : JsVal :=
  ((List.find? (fun p => p.1 == k) e).map (fun p => p.2)).getD .vundefined

/-- Model of `parseEmail` from the shared script utilities (`lib/utils`, lines
112-162): schema detection by key presence, with a graceful-fallback
branch for unrecognized schemas.  Returns the raw field values of the
matched schema (possibly `undefined`); only the fallback branch
substitutes the default strings. -/
def parseEmailLib (e : EmailInput) : JsVal × JsVal × JsVal × JsVal :=
  if hasField e "author" && hasField e "email_thread" then
    (getField e "author", getField e "to", getField e "subject", getField e "email_thread")
  else if hasField e "from_email" && hasField e "page_content" then
    (getField e "from_email", getField e "to_email", getField e "subject",
      getField e "page_content")
  else if hasField e "from" && hasField e "body" then
    (getField e "from", getField e "to", getField e "subject", getField e "body")
  else
    (orJs (getField e "author") (orJs (getField e "from_email")
        (orJs (getField e "from") (.vstr "Unknown Sender"))),
      orJs (getField e "to") (orJs (getField e "to_email") (.vstr "Unknown Recipient")),
      orJs (getField e "subject") (.vstr "No Subject"),
      orJs (getField e "email_thread") (orJs (getField e "page_content")
        (orJs (getField e "body") (orJs (getField e "content")
          (.vstr "No content available")))))

/-- Calling `parseEmail` on the raw state field: a non-object
`email_input` (`none`) makes the `in` operator throw. -/
def parseEmailLibE : Option EmailInput → Except String (JsVal × JsVal × JsVal × JsVal)
  | none => .error "Cannot use in operator to search for author in undefined"
  | some e => .ok (parseEmailLib e)

/-- Model of `formatEmailMarkdown` from the shared script utilities. -/
def formatEmailMarkdownLib (subject author «to» emailThread : String) : String :=
  "\n**Subject**: " ++ subject ++ "\n**From**: " ++ author ++ "\n**To**: " ++ «to»
    ++ "\n\n" ++ emailThread ++ "\n\n---\n"

/-! ## Basic triage router (`triageRouterNode` in `scripts/email_assistant.ts`) -/

/-- The value read off the JSON the basic router asks the LLM for: the
optional `classification` field of the parsed object. -/
structure RouterJson where
  classification : Option String
deriving DecidableEq, Repr

/-- Lines 222-236 of `scripts/email_assistant.ts`: `JSON.parse` of the
response text (the oracle `jsonParse`; `.error` = parse threw, caught by
the inner `try`), then the `classification` field is kept only when it
is one of the three enum strings; everything else defaults to
`ignore`. -/
def basicClassify (jsonParse : String → Except String RouterJson) (text : String) : String :=
  match jsonParse text with
  | .error _ => "ignore"
  | .ok j =>
    match j.classification with
    | some c => if (["ignore", "respond", "notify"] : List String).contains c then c else "ignore"
    | none => "ignore"

/-- The catch branch of the basic triage router: classification
`ignore`, explanatory system message, goto `END`. -/
def basicRouterCatch (e : String) : RouterResult :=
  ⟨.endNode, some "ignore", [systemMsg ("Error processing email: " ++ e)]⟩

/-- Model of `triageRouterNode` in `scripts/email_assistant.ts` (lines 175-275).
The whole body is in `try`/`catch`; a non-object email input or a thrown
LLM call reaches the catch.  Only a `respond` classification changes the
goto from `END`. -/
def triageRouterNodeBasic (jsonParse : String → Except String RouterJson)
    (triageLLM : Except String String) (email_input : Option EmailInput) : RouterResult :=
  match parseEmailLibE email_input with
  | .error e => basicRouterCatch e
  | .ok (author, «to», subject, emailThread) =>
    match triageLLM with
    | .error e => basicRouterCatch e
    | .ok content =>
      let classification := basicClassify jsonParse content
      let emailMarkdown := formatEmailMarkdownLib (jsValToString subject)
        (jsValToString author) (jsValToString «to») (jsValToString emailThread)
      if classification == "respond" then
        ⟨.response_agent, some classification,
          [humanMsg ("Respond to the email: " ++ emailMarkdown)]⟩
      else
        ⟨.endNode, some classification, []⟩

/-! ## Preference store, `getMemory`, `updateMemory`
(`scripts/email_assistant_hitl_memory.ts`) -/

/-- The in-memory key-value store: `(namespace, key)` entries; `put`
prepends, `get` finds the newest entry. -/
abbrev Store := List ((List String × String) × String)

def storeGet (s : Store) (ns : List String) (key : String) : Option String :=
  ((List.find? (fun e => decide (e.1 = (ns, key))) s).map (fun e => e.2))

def storePut (s : Store) (ns : List String) (key v : String) : Store :=
  ((ns, key), v) :: s

/-- Model of `getMemory` (lines 165-188): look up `(namespace, "user_preferences")`;
on a hit return the stored value and leave the store unchanged; on a
miss, or when the lookup throws (`getFault`), write the default content
under that key and return it. -/
def getMemory (store : Store) (ns : List String) (defaultContent : String)
    (getFault : Bool) : String × Store :=
  if getFault then
    (defaultContent, storePut store ns "user_preferences" defaultContent)
  else
    match storeGet store ns "user_preferences" with
    | some v => (v, store)
    | none => (defaultContent, storePut store ns "user_preferences" defaultContent)

/-- Model of `updateMemory` (lines 197-269): read the current profile, ask the
LLM for the updated `preferences` string (`llmPrefs`), and overwrite
`(namespace, "user_preferences")` with it.  The whole body is in
`try`/`catch`: if the lookup throws (`getFault`) or the LLM call throws,
the store is left unchanged. -/
def updateMemory (store : Store) (ns : List String) (getFault : Bool)
    (llmPrefs : Except String String) : Store :=
  if getFault then store
  else
    match llmPrefs with
    | .error _ => store
    | .ok prefs => storePut store ns "user_preferences" prefs

/-! ## Memory-variant triage router
(`createTriageRouterNode` in `scripts/email_assistant_hitl_memory.ts`) -/

/-- Model of `createTriageRouterNode` in `scripts/email_assistant_hitl_memory.ts`
(lines 274-379): parse the email, fetch triage preferences via
`getMemory`, call the LLM, classify by the same ordered keyword matching
as the HITL router, and route.  The catch sets classification `error`.
Returns the `Command` together with the store left by `getMemory`. -/
def createTriageRouterNode (store : Store) (getFault : Bool)
    (defaultTriageInstructions : String) (triageLLM : Except String String)
    (email_input : Option EmailInput) : RouterResult × Store :=
  match parseEmailLibE email_input with
  | .error e => (routerCatch e, store)
  | .ok (author, «to», subject, emailThread) =>
    let store' := (getMemory store ["email_assistant", "triage_preferences"]
      defaultTriageInstructions getFault).2
    match triageLLM with
    | .error e => (routerCatch e, store')
    | .ok content =>
      let classification := hitlClassify content
      let emailMarkdown := formatEmailMarkdownLib (jsValToString subject)
        (jsValToString author) (jsValToString «to») (jsValToString emailThread)
      if classification == "respond" then
        (⟨.response_agent, some "respond",
          [humanMsg ("Respond to the email: " ++ emailMarkdown)]⟩, store')
      else if classification == "notify" then
        (⟨.triage_interrupt_handler, some "notify", []⟩, store')
      else if classification == "ignore" then
        (⟨.endNode, some "ignore", []⟩, store')
      else
        -- dead fallback in the source ("Treating as IGNORE")
        (⟨.endNode, some "ignore", []⟩, store')

/-! ## The HITL workflow graph as a small-step machine -/

/-- Graph positions of the HITL workflow (`initializeHitlEmailAssistant`):
the two triage nodes, the response-agent subgraph nodes, termination,
and a crash position for an exception escaping a node. -/
inductive NodeH where
  | triage_router
  | triage_interrupt_handler
  | llm_call
  | interrupt_handler
  | done
  | crashed
deriving DecidableEq, Repr

/-- The `EmailAgentHITLState` channels the claims read: the message
transcript (append reducer), the raw email input, and
`classification_decision`, a nullable string validated by the zod enum. -/
structure HState where
  messages : List Msg
  email_input : Option EmailData
  classification_decision : Option String
deriving DecidableEq, Repr

/-- LangGraph state update: a `classification_decision` present in the
update overwrites, an absent one leaves the channel alone. -/
def mergeCD (old new : Option String) : Option String :=
  match new with
  | some c => some c
  | none => old

/-- The oracle inputs consumed by one step: the triage LLM, the agent
LLM, the human review, the tool environment, and `Date.now()`. -/
structure StepOracle where
  triageLLM : Except String String
  agentLLM : Except String Msg
  review : HumanResponse
  env : ToolEnv
  now : Nat

/-- Routing of the triage router's `Command` in the outer graph
(`response_agent` enters the subgraph at `llm_call`). -/
def routeFromTriage : Goto → NodeH
  | .response_agent => .llm_call
  | .triage_interrupt_handler => .triage_interrupt_handler
  | _ => .done

/-- One step of the HITL workflow graph. -/
def stepH (o : StepOracle) : NodeH × HState → NodeH × HState
  | (.triage_router, st) =>
    let r := triageRouterNode o.triageLLM st.email_input
    (routeFromTriage r.goto,
      { st with messages := st.messages ++ r.messages,
                classification_decision :=
                  mergeCD st.classification_decision r.classification_decision })
  | (.triage_interrupt_handler, st) =>
    match triageInterruptHandlerNode o.review st.email_input with
    | .error _ => (.crashed, st)
    | .ok r =>
      ((if r.goto = .response_agent then .llm_call else .done),
        { st with messages := st.messages ++ r.messages })
  | (.llm_call, st) =>
    let st' := { st with messages := st.messages ++ llmCallNode o.agentLLM }
    ((match shouldContinue st'.messages with
      | .interrupt_handler => .interrupt_handler
      | _ => .done), st')
  | (.interrupt_handler, st) =>
    match interruptHandlerNode o.env o.review o.now st.email_input st.messages with
    | .error _ => (.crashed, st)
    | .ok r =>
      ((if r.goto = .llm_call then .llm_call else .done),
        { st with messages := st.messages ++ r.messages })
  | (.done, st) => (.done, st)
  | (.crashed, st) => (.crashed, st)

/-- Reachable configurations of the HITL workflow when invoked on
`email_input = inp` (initial state: empty transcript, null
classification). -/
inductive ReachH (inp : Option EmailData) : NodeH × HState → Prop where
  | init : ReachH inp (.triage_router, ⟨[], inp, none⟩)
  | step (o : StepOracle) {c : NodeH × HState} : ReachH inp c → ReachH inp (stepH o c)

/-! ## The basic workflow graph as a small-step machine -/

/-- Graph positions of the basic workflow (`initializeEmailAssistant`):
triage router, agent subgraph (`llm_call`/`environment`), termination,
and a crash position (the basic `llmCallNode` has no `try`/`catch`). -/
inductive NodeB where
  | triage_router
  | llm_call
  | environment
  | done
  | crashed
deriving DecidableEq, Repr

/-- The `BaseEmailAgentState` channels the claims read. -/
structure BState where
  messages : List Msg
  email_input : Option EmailInput
  classification_decision : Option String
deriving DecidableEq, Repr

/-- Oracle inputs for one basic-workflow step. -/
structure StepOracleB where
  jsonParse : String → Except String RouterJson
  triageLLM : Except String String
  agentLLM : Except String Msg
  env : ToolEnv
  now : Nat

/-- The third-party `ToolNode` (`environment` node): executes every tool
call of the last message and appends one tool message per call.
Modelled from the library's documented behaviour; it never touches
`classification_decision`. -/
def toolNodeB (env : ToolEnv) (now : Nat) (messages : List Msg) : List Msg :=
  match messages.getLast? with
  | none => []
  | some m =>
    m.tool_calls.map fun tc =>
      let cid := callIdOf now tc
      if env.registered.contains tc.name then
        match env.invoke tc.name (parseToolCallArgs tc.args) with
        | .ok obs => toolMsg obs cid
        | .error e => toolMsg ("Error: " ++ e) cid
      else toolMsg ("Error: " ++ tc.name ++ " is not a valid tool") cid

/-- One step of the basic workflow graph. -/
def stepB (o : StepOracleB) : NodeB × BState → NodeB × BState
  | (.triage_router, st) =>
    let r := triageRouterNodeBasic o.jsonParse o.triageLLM st.email_input
    ((if r.goto = .response_agent then .llm_call else .done),
      { st with messages := st.messages ++ r.messages,
                classification_decision :=
                  mergeCD st.classification_decision r.classification_decision })
  | (.llm_call, st) =>
    match o.agentLLM with
    | .error _ => (.crashed, st)
    | .ok m =>
      let st' := { st with messages := st.messages ++ [m] }
      ((match shouldContinue st'.messages with
        | .interrupt_handler => .environment
        | _ => .done), st')
  | (.environment, st) =>
    (.llm_call, { st with messages := st.messages ++ toolNodeB o.env o.now st.messages })
  | (.done, st) => (.done, st)
  | (.crashed, st) => (.crashed, st)

/-- Reachable configurations of the basic workflow on `email_input = inp`. -/
inductive ReachB (inp : Option EmailInput) : NodeB × BState → Prop where
  | init : ReachB inp (.triage_router, ⟨[], inp, none⟩)
  | step (o : StepOracleB) {c : NodeB × BState} : ReachB inp c → ReachB inp (stepB o c)

/-! ## The HITL+memory workflow graph as a small-step machine

The memory variant (`initializeEmailAssistant` in
`scripts/email_assistant_hitl_memory.ts`) wires `createTriageRouterNode`,
`createTriageInterruptHandlerNode`, `createLLMCallNode` and
`createInterruptHandlerNode` into the same graph shape as the HITL
variant, over the four-valued `EmailAgentHITLState` and an external
`InMemoryStore`.  The triage router is embedded exactly
(`createTriageRouterNode` above).  The three other nodes return Commands
whose update carries only the `messages` channel (lines 466-471, 474-481
for the triage interrupt handler; 521-524, 526-532 for the LLM node;
552-555, 816-821 for the tool-review interrupt handler) — none of them
touches `classification_decision` — and their message contents and store
effects are driven by the LLM, the human reviewer and the tools, so the
machine models each of these nodes by an oracle-chosen messages update,
store effect and routing choice; `crash` models the exceptions that
escape a node (the email-parse checks outside the `try` blocks, lines
387-392 and 610-614).  Every concrete run of the real graph is an
instance of this machine for some oracle choices. -/

/-- Graph positions of the HITL+memory workflow. -/
inductive NodeM where
  | triage_router
  | triage_interrupt_handler
  | llm_call
  | interrupt_handler
  | done
  | crashed
deriving DecidableEq, Repr

/-- The `EmailAgentHITLState` channels of the memory variant, together
with the external preference store. -/
structure MState where
  messages : List Msg
  email_input : Option EmailInput
  classification_decision : Option String
  store : Store
deriving DecidableEq, Repr

/-- Oracle inputs for one memory-workflow step: the triage LLM and
`getMemory` fault/default for the router, and the abstracted behaviour
of the three messages-only nodes. -/
structure StepOracleM where
  triageLLM : Except String String
  getFault : Bool
  dflt : String
  crash : Bool
  nodeMsgs : List Msg
  nodeStore : Store → Store
  intGotoRespond : Bool
  handlerGotoLLM : Bool

/-- Routing of the memory triage router's `Command` in the outer graph. -/
def routeFromTriageM : Goto → NodeM
  | .response_agent => .llm_call
  | .triage_interrupt_handler => .triage_interrupt_handler
  | _ => .done

/-- One step of the HITL+memory workflow graph. -/
def stepM (o : StepOracleM) : NodeM × MState → NodeM × MState
  | (.triage_router, st) =>
    let rs := createTriageRouterNode st.store o.getFault o.dflt o.triageLLM st.email_input
    (routeFromTriageM rs.1.goto,
      { st with messages := st.messages ++ rs.1.messages,
                classification_decision :=
                  mergeCD st.classification_decision rs.1.classification_decision,
                store := rs.2 })
  | (.triage_interrupt_handler, st) =>
    if o.crash then (.crashed, st)
    else
      ((if o.intGotoRespond then .llm_call else .done),
        { st with messages := st.messages ++ o.nodeMsgs, store := o.nodeStore st.store })
  | (.llm_call, st) =>
    let st' := { st with messages := st.messages ++ o.nodeMsgs, store := o.nodeStore st.store }
    ((match shouldContinue st'.messages with
      | .interrupt_handler => .interrupt_handler
      | _ => .done), st')
  | (.interrupt_handler, st) =>
    if o.crash then (.crashed, st)
    else
      ((if o.handlerGotoLLM then .llm_call else .done),
        { st with messages := st.messages ++ o.nodeMsgs, store := o.nodeStore st.store })
  | (.done, st) => (.done, st)
  | (.crashed, st) => (.crashed, st)

/-- Reachable configurations of the HITL+memory workflow on
`email_input = inp` with initial store `store0`. -/
inductive ReachM (inp : Option EmailInput) (store0 : Store) : NodeM × MState → Prop where
  | init : ReachM inp store0 (.triage_router, ⟨[], inp, none, store0⟩)
  | step (o : StepOracleM) {c : NodeM × MState} : ReachM inp store0 c → ReachM inp store0 (stepM o c)

/-! ## Concrete fixtures for witnesses and counterexamples -/

/-- A concrete email record. -/
def emailFixture : EmailData :=
  ⟨"alice@example.com", "bob@example.com", "Hello", "Hi there"⟩

/-- Its parse under `parseEmailSrc`. -/
def parsedFixture : ParsedEmail :=
  ⟨"alice@example.com", "bob@example.com", "Hello", "Hi there"⟩

/-- A concrete tool environment where every invocation succeeds with
observation `"ok"`. -/
def toolEnvFixture : ToolEnv :=
  ⟨["check_calendar_availability", "write_email", "schedule_meeting", "question", "Done"],
    fun _ _ => .ok "ok"⟩

/-! # Theorems for the claims -/

/-- C1: the HITL triage router classifies the lowercased trimmed LLM
response text by ordered keyword matching — `respond` if it contains
"respond", else `notify` if it contains "notify", else `ignore` if it
contains "ignore", else `notify` — and routes `respond` to
`response_agent`, `notify` to `triage_interrupt_handler`, `ignore` to
`END`, recording the classification in `classification_decision`. -/
theorem c1_hitl_triage_keyword_routing (content : String) (email : Option EmailData)
    (pe : ParsedEmail) (hpe : parseEmailSrc email = .ok pe) :
    (strContains (jsTrim (jsToLower content)) "respond" = true →
      triageRouterNode (.ok content) email =
        ⟨.response_agent, some "respond",
          [humanMsg ("Respond to the email: "
            ++ formatEmailMarkdownSrc pe.subject pe.author pe.«to» pe.emailThread)]⟩)
    ∧ (strContains (jsTrim (jsToLower content)) "respond" = false →
       strContains (jsTrim (jsToLower content)) "notify" = true →
      triageRouterNode (.ok content) email = ⟨.triage_interrupt_handler, some "notify", []⟩)
    ∧ (strContains (jsTrim (jsToLower content)) "respond" = false →
       strContains (jsTrim (jsToLower content)) "notify" = false →
       strContains (jsTrim (jsToLower content)) "ignore" = true →
      triageRouterNode (.ok content) email = ⟨.endNode, some "ignore", []⟩)
    ∧ (strContains (jsTrim (jsToLower content)) "respond" = false →
       strContains (jsTrim (jsToLower content)) "notify" = false →
       strContains (jsTrim (jsToLower content)) "ignore" = false →
      triageRouterNode (.ok content) email = ⟨.triage_interrupt_handler, some "notify", []⟩) := by
  refine ⟨?_, ?_, ?_, ?_⟩
  · intro h1
    simp [triageRouterNode, hitlClassify, hpe, h1]
  · intro h1 h2
    simp [triageRouterNode, hitlClassify, hpe, h1, h2]
  · intro h1 h2 h3
    simp [triageRouterNode, hitlClassify, hpe, h1, h2, h3]
  · intro h1 h2 h3
    simp [triageRouterNode, hitlClassify, hpe, h1, h2, h3]

/-- Witness for C1 at the concrete response text "Respond: yes". -/
theorem c1_hitl_triage_keyword_routing_witness :
    parseEmailSrc (some emailFixture) = .ok parsedFixture
    ∧ strContains (jsTrim (jsToLower "Respond: yes")) "respond" = true
    ∧ triageRouterNode (.ok "Respond: yes") (some emailFixture) =
      ⟨.response_agent, some "respond",
        [humanMsg ("Respond to the email: "
          ++ formatEmailMarkdownSrc parsedFixture.subject parsedFixture.author
              parsedFixture.«to» parsedFixture.emailThread)]⟩ :=
  ⟨by decide, by decide,
    (c1_hitl_triage_keyword_routing "Respond: yes" (some emailFixture) parsedFixture
      (by decide)).1 (by decide)⟩

/-- C2: in the HITL review loop on a pending HITL tool call (the first
tool call of the last AI message, with name in `hitlTools`): an `accept`
response executes the pending tool exactly once with the (parsed)
original arguments; an `edit` response executes it once with the
reviewer-supplied arguments; a `response` with string feedback executes
no tool and appends a tool message carrying the feedback, keeping the
goto at `llm_call`; an `ignore` response executes no tool, appends a
tool message noting the ignore, and sets the goto to `END`. -/
theorem c2_hitl_review_actions (env : ToolEnv) (review : HumanResponse) (now : Nat)
    (email : Option EmailData) (msgs : List Msg) (lm : Msg) (tc : ToolCall)
    (rest : List ToolCall) (pe : ParsedEmail)
    (hl : msgs.getLast? = some lm) (hrole : lm.role = "ai")
    (htc : lm.tool_calls = tc :: rest)
    (hhitl : hitlTools.contains tc.name = true)
    (hpe : parseEmailSrc email = .ok pe) :
    (review.type = "accept" → env.registered.contains tc.name = true →
      ∀ obs, env.invoke tc.name (parseToolCallArgs tc.args) = .ok obs →
      interruptHandlerNode env review now email msgs =
        .ok ⟨.llm_call,
          toolMsg obs (callIdOf now tc) :: deferredMsgs now [callIdOf now tc] (tc :: rest),
          [⟨tc.name, parseToolCallArgs tc.args⟩], [tc.name]⟩)
    ∧ (review.type = "edit" → ∀ o, review.args = .obj o →
      env.registered.contains tc.name = true →
      ∀ obs, env.invoke tc.name o = .ok obs →
      interruptHandlerNode env review now email msgs =
        .ok ⟨.llm_call,
          toolMsg obs (callIdOf now tc) :: deferredMsgs now [callIdOf now tc] (tc :: rest),
          [⟨tc.name, o⟩], [tc.name]⟩)
    ∧ (review.type = "response" → ∀ s, review.args = .str s →
      interruptHandlerNode env review now email msgs =
        .ok ⟨.llm_call,
          toolMsg (feedbackContent tc.name s) (callIdOf now tc)
            :: deferredMsgs now [callIdOf now tc] (tc :: rest),
          [], [tc.name]⟩)
    ∧ (review.type = "ignore" →
      interruptHandlerNode env review now email msgs =
        .ok ⟨.endNode,
          toolMsg ("User chose to ignore this " ++ tc.name ++ " action.") (callIdOf now tc)
            :: deferredMsgs now [callIdOf now tc] (tc :: rest),
          [], [tc.name]⟩) := by
  have hh : tc.name ∈ hitlTools := by simpa using hhitl
  refine ⟨?_, ?_, ?_, ?_⟩
  · intro ht hreg obs hobs
    have hr : tc.name ∈ env.registered := by simpa using hreg
    simp [interruptHandlerNode, hl, hrole, htc, hh, hr, hpe, ht, hobs]
  · intro ht o ho hreg obs hobs
    have hr : tc.name ∈ env.registered := by simpa using hreg
    simp [interruptHandlerNode, hl, hrole, htc, hh, hr, hpe, ht, ho, hobs]
  · intro ht s hs
    simp [interruptHandlerNode, hl, hrole, htc, hh, hpe, ht, hs]
  · intro ht
    simp [interruptHandlerNode, hl, hrole, htc, hh, hpe, ht]

/-- A last message whose single tool call is a pending `write_email`
HITL action. -/
def hitlPendingMsg : Msg :=
  { role := "ai", content := "",
    tool_calls := [⟨"write_email", .obj ⟨"draft"⟩, some "call-1"⟩] }

/-- Witness for C2: an `accept` on a pending `write_email` executes it
once with the original arguments. -/
theorem c2_hitl_review_actions_witness :
    hitlTools.contains "write_email" = true
    ∧ toolEnvFixture.registered.contains "write_email" = true
    ∧ interruptHandlerNode toolEnvFixture ⟨"accept", .null⟩ 0 (some emailFixture)
        [hitlPendingMsg] =
      .ok ⟨.llm_call,
        toolMsg "ok" (callIdOf 0 ⟨"write_email", .obj ⟨"draft"⟩, some "call-1"⟩)
          :: deferredMsgs 0 [callIdOf 0 ⟨"write_email", .obj ⟨"draft"⟩, some "call-1"⟩]
              [⟨"write_email", .obj ⟨"draft"⟩, some "call-1"⟩],
        [⟨"write_email", parseToolCallArgs (.obj ⟨"draft"⟩)⟩], ["write_email"]⟩ :=
  ⟨by decide, by decide,
    (c2_hitl_review_actions toolEnvFixture ⟨"accept", .null⟩ 0 (some emailFixture)
        [hitlPendingMsg] hitlPendingMsg ⟨"write_email", .obj ⟨"draft"⟩, some "call-1"⟩ []
        parsedFixture rfl rfl rfl (by decide) (by decide)).1
      rfl (by decide) "ok" rfl⟩

/-! ### Structure of the interrupt handler's output (for C3/C8) -/

theorem execToolCall_fst_tool_call_id (env : ToolEnv) (cid : String) (tc : ToolCall) :
    ((execToolCall env cid tc).1).tool_call_id = some cid := by
  unfold execToolCall
  split
  · split <;> rfl
  · rfl

theorem execToolCall_snd_length (env : ToolEnv) (cid : String) (tc : ToolCall) :
    ((execToolCall env cid tc).2).length ≤ 1 := by
  unfold execToolCall
  split
  · split <;> simp
  · simp

theorem deferredMsgs_covers (now : Nat) (processed : List String) (tcs : List ToolCall)
    (tc : ToolCall) (htc : tc ∈ tcs)
    (hnp : callIdOf now tc ∉ processed) :
    ∃ m ∈ deferredMsgs now processed tcs, m.tool_call_id = some (callIdOf now tc) := by
  refine ⟨toolMsg "Tool execution deferred or pending subsequent review step."
    (callIdOf now tc), ?_, rfl⟩
  unfold deferredMsgs
  exact List.mem_filterMap.mpr ⟨tc, htc, by simp [hnp]⟩

/-- Every successful run of the interrupt handler on a last AI message
with tool calls `tc :: rest` produces a head tool message answering `tc`
followed by the deferred placeholders, executes at most one tool, and
interrupts at most once. -/
theorem interruptHandlerNode_ok_shape (env : ToolEnv) (review : HumanResponse) (now : Nat)
    (email : Option EmailData) (msgs : List Msg) (lm : Msg) (tc : ToolCall)
    (rest : List ToolCall) (r : HandlerResult)
    (hl : msgs.getLast? = some lm) (hrole : lm.role = "ai")
    (hcalls : lm.tool_calls = tc :: rest)
    (hr : interruptHandlerNode env review now email msgs = .ok r) :
    ∃ hm : Msg, hm.tool_call_id = some (callIdOf now tc)
      ∧ r.messages = hm :: deferredMsgs now [callIdOf now tc] (tc :: rest)
      ∧ r.execs.length ≤ 1 ∧ r.interrupts.length ≤ 1 := by
  simp only [interruptHandlerNode, hl] at hr
  rw [hcalls] at hr
  simp only [hrole, beq_self_eq_true, Bool.not_true, List.isEmpty_cons, Bool.or_self,
    Bool.false_or, Bool.or_false, Bool.false_eq_true, if_false] at hr
  split at hr
  case isTrue =>
    simp only [Except.ok.injEq] at hr
    subst hr
    exact ⟨_, execToolCall_fst_tool_call_id env (callIdOf now tc) tc, rfl,
      execToolCall_snd_length env (callIdOf now tc) tc, by simp⟩
  case isFalse =>
    split at hr
    case h_1 => exact absurd hr (by simp)
    case h_2 =>
      split at hr
      case isTrue =>
        split at hr
        case h_2 =>
          simp only [Except.ok.injEq] at hr
          subst hr
          exact ⟨_, rfl, rfl, by simp, by simp⟩
        all_goals
          simp only [Except.ok.injEq] at hr
          subst hr
          exact ⟨_, rfl, rfl, by simp, by simp⟩
      case isFalse =>
        split at hr
        case isTrue =>
          split at hr
          case isTrue =>
            split at hr
            case h_1 =>
              simp only [Except.ok.injEq] at hr
              subst hr
              exact ⟨_, rfl, rfl, by simp, by simp⟩
            case h_2 => exact absurd hr (by simp)
          case isFalse => exact absurd hr (by simp)
        case isFalse =>
          split at hr
          case isTrue =>
            split at hr
            case h_1 =>
              split at hr
              case isTrue =>
                split at hr
                case h_1 =>
                  simp only [Except.ok.injEq] at hr
                  subst hr
                  exact ⟨_, rfl, rfl, by simp, by simp⟩
                case h_2 => exact absurd hr (by simp)
              case isFalse => exact absurd hr (by simp)
            case h_2 =>
              simp only [Except.ok.injEq] at hr
              subst hr
              exact ⟨_, rfl, rfl, by simp, by simp⟩
          case isFalse =>
            split at hr <;>
              (simp only [Except.ok.injEq] at hr; subst hr;
                exact ⟨_, rfl, rfl, by simp, by simp⟩)

/-- C3 (amended): on a last AI message with any number of tool calls the
interrupt handler processes (executes or reviews) at most one tool call
per turn, and — provided the call ids of the message's tool calls are
pairwise distinct — every tool call receives a tool message: the
processed one its response, every remaining one a deferred-execution
placeholder. -/
theorem c3_one_processed_all_answered (env : ToolEnv) (review : HumanResponse) (now : Nat)
    (email : Option EmailData) (msgs : List Msg) (lm : Msg) (r : HandlerResult)
    (hl : msgs.getLast? = some lm) (hrole : lm.role = "ai")
    (hr : interruptHandlerNode env review now email msgs = .ok r)
    (hnodup : (lm.tool_calls.map (callIdOf now)).Nodup) :
    r.execs.length ≤ 1 ∧ r.interrupts.length ≤ 1
      ∧ ∀ tc ∈ lm.tool_calls, ∃ m ∈ r.messages, m.tool_call_id = some (callIdOf now tc) := by
  cases hcalls : lm.tool_calls with
  | nil =>
    simp only [interruptHandlerNode, hl] at hr
    rw [hcalls] at hr
    simp only [List.isEmpty_nil, Bool.or_true, if_true, Except.ok.injEq] at hr
    subst hr
    simp [hcalls]
  | cons tc rest =>
    obtain ⟨hm, hmid, hmsgs, hex, hint⟩ :=
      interruptHandlerNode_ok_shape env review now email msgs lm tc rest r hl hrole hcalls hr
    refine ⟨hex, hint, ?_⟩
    intro tc' htc'
    rw [hmsgs]
    rcases List.mem_cons.mp htc' with rfl | hmem
    · exact ⟨hm, List.mem_cons_self _ _, hmid⟩
    · have hne : callIdOf now tc' ≠ callIdOf now tc := by
        rw [hcalls] at hnodup
        simp only [List.map_cons, List.nodup_cons] at hnodup
        intro he
        exact hnodup.1 (he ▸ List.mem_map_of_mem (callIdOf now) hmem)
      obtain ⟨m, hmmem, hmi⟩ := deferredMsgs_covers now [callIdOf now tc] (tc :: rest) tc'
        (List.mem_cons_of_mem _ hmem) (by simp [hne])
      exact ⟨m, List.mem_cons_of_mem _ hmmem, hmi⟩

/-- A last message with two tool calls carrying distinct call ids. -/
def twoCallMsg : Msg :=
  { role := "ai", content := "",
    tool_calls := [⟨"check_calendar_availability", .obj ⟨"a1"⟩, some "call-A"⟩,
      ⟨"write_email", .obj ⟨"a2"⟩, some "call-B"⟩] }

/-- The handler's output on `twoCallMsg` under `toolEnvFixture`. -/
def twoCallResult : HandlerResult :=
  ⟨.llm_call,
    [toolMsg "ok" "call-A",
      toolMsg "Tool execution deferred or pending subsequent review step." "call-B"],
    [⟨"check_calendar_availability", ⟨"a1"⟩⟩], []⟩

/-- Witness for C3 at a concrete two-tool-call message with distinct ids. -/
theorem c3_one_processed_all_answered_witness :
    twoCallResult.execs.length ≤ 1 ∧ twoCallResult.interrupts.length ≤ 1
      ∧ ∀ tc ∈ twoCallMsg.tool_calls,
          ∃ m ∈ twoCallResult.messages, m.tool_call_id = some (callIdOf 0 tc) :=
  c3_one_processed_all_answered toolEnvFixture ⟨"accept", .null⟩ 0 (some emailFixture)
    [twoCallMsg] twoCallMsg twoCallResult rfl rfl (by decide) (by decide)

/-- A last message whose two tool calls share the call id "call-A". -/
def dupIdMsg : Msg :=
  { role := "ai", content := "",
    tool_calls := [⟨"check_calendar_availability", .obj ⟨"a1"⟩, some "call-A"⟩,
      ⟨"write_email", .obj ⟨"a2"⟩, some "call-A"⟩] }

/-- Counterexample to C3 as stated: with two tool calls sharing a call
id, the handler executes only the first, reviews nothing, and emits a
single tool message — no deferred placeholder at all — so the second
(unprocessed) tool call is left without a response. -/
theorem c3_counterexample :
    interruptHandlerNode toolEnvFixture ⟨"accept", .null⟩ 0 (some emailFixture) [dupIdMsg]
      = .ok ⟨.llm_call, [toolMsg "ok" "call-A"],
          [⟨"check_calendar_availability", ⟨"a1"⟩⟩], []⟩
    ∧ dupIdMsg.tool_calls.length = 2
    ∧ (∀ m ∈ [toolMsg "ok" "call-A"],
        m.content ≠ "Tool execution deferred or pending subsequent review step.") := by
  decide

/-! ### Classification values produced by the routers (for C4) -/

theorem hitlClassify_cases (c : String) :
    hitlClassify c = "respond" ∨ hitlClassify c = "notify" ∨ hitlClassify c = "ignore" := by
  unfold hitlClassify
  split
  · exact Or.inl rfl
  · split
    · exact Or.inr (Or.inl rfl)
    · split
      · exact Or.inr (Or.inr rfl)
      · exact Or.inr (Or.inl rfl)

theorem triageRouterNode_cd (llm : Except String String) (email : Option EmailData) :
    (triageRouterNode llm email).classification_decision = some "respond"
    ∨ (triageRouterNode llm email).classification_decision = some "notify"
    ∨ (triageRouterNode llm email).classification_decision = some "ignore"
    ∨ (triageRouterNode llm email).classification_decision = some "error" := by
  rcases email with _ | e
  · simp [triageRouterNode, parseEmailSrc, routerCatch]
  · rcases llm with e' | c
    · simp [triageRouterNode, parseEmailSrc, routerCatch]
    · rcases hitlClassify_cases c with h | h | h <;>
        simp [triageRouterNode, parseEmailSrc, h]

theorem basicClassify_cases (jp : String → Except String RouterJson) (text : String) :
    basicClassify jp text = "ignore" ∨ basicClassify jp text = "respond"
      ∨ basicClassify jp text = "notify" := by
  unfold basicClassify
  rcases jp text with e | j
  · exact Or.inl rfl
  · cases hcl : j.classification with
    | none => simp [hcl]
    | some cl =>
      simp only [hcl]
      cases hc : (["ignore", "respond", "notify"] : List String).contains cl with
      | false => simp [hc]
      | true =>
        have hm : cl = "ignore" ∨ cl = "respond" ∨ cl = "notify" := by
          simpa using hc
        rcases hm with rfl | rfl | rfl <;> simp

theorem triageRouterNodeBasic_cd (jp : String → Except String RouterJson)
    (llm : Except String String) (email : Option EmailInput) :
    (triageRouterNodeBasic jp llm email).classification_decision = some "respond"
    ∨ (triageRouterNodeBasic jp llm email).classification_decision = some "notify"
    ∨ (triageRouterNodeBasic jp llm email).classification_decision = some "ignore" := by
  rcases email with _ | e
  · simp [triageRouterNodeBasic, parseEmailLibE, basicRouterCatch]
  · rcases llm with e' | c
    · simp [triageRouterNodeBasic, parseEmailLibE, basicRouterCatch]
    · rcases basicClassify_cases jp c with h | h | h <;>
        simp [triageRouterNodeBasic, parseEmailLibE, h]

/-- Classification channel invariant of the HITL machine: null or one of
the four enum values of `EmailAgentHITLState`. -/
def cdOkH (v : Option String) : Prop :=
  v = none ∨ v = some "ignore" ∨ v = some "respond" ∨ v = some "notify" ∨ v = some "error"

/-- Classification channel invariant of the basic machine: null or one
of the three enum values of `BaseEmailAgentState`. -/
def cdOkB (v : Option String) : Prop :=
  v = none ∨ v = some "ignore" ∨ v = some "respond" ∨ v = some "notify"

theorem stepH_cd (o : StepOracle) (c : NodeH × HState)
    (h : cdOkH c.2.classification_decision) :
    cdOkH (stepH o c).2.classification_decision := by
  obtain ⟨n, st⟩ := c
  cases n
  case triage_router =>
    rcases triageRouterNode_cd o.triageLLM st.email_input with h' | h' | h' | h' <;>
      simp [stepH, mergeCD, h', cdOkH]
  case triage_interrupt_handler =>
    simp only [stepH]
    split
    · exact h
    · exact h
  case llm_call => exact h
  case interrupt_handler =>
    simp only [stepH]
    split
    · exact h
    · exact h
  case done => exact h
  case crashed => exact h

theorem createTriageRouterNode_cd (store : Store) (fault : Bool) (dflt : String)
    (llm : Except String String) (email : Option EmailInput) :
    (createTriageRouterNode store fault dflt llm email).1.classification_decision = some "respond"
    ∨ (createTriageRouterNode store fault dflt llm email).1.classification_decision = some "notify"
    ∨ (createTriageRouterNode store fault dflt llm email).1.classification_decision = some "ignore"
    ∨ (createTriageRouterNode store fault dflt llm email).1.classification_decision
        = some "error" := by
  rcases email with _ | e
  · simp [createTriageRouterNode, parseEmailLibE, routerCatch]
  · rcases llm with e' | c
    · simp [createTriageRouterNode, parseEmailLibE, routerCatch]
    · rcases hitlClassify_cases c with h | h | h <;>
        simp [createTriageRouterNode, parseEmailLibE, h]

theorem stepM_cd (o : StepOracleM) (c : NodeM × MState)
    (h : cdOkH c.2.classification_decision) :
    cdOkH (stepM o c).2.classification_decision := by
  obtain ⟨n, st⟩ := c
  cases n
  case triage_router =>
    rcases createTriageRouterNode_cd st.store o.getFault o.dflt o.triageLLM st.email_input
      with h' | h' | h' | h' <;> simp [stepM, mergeCD, h', cdOkH]
  case triage_interrupt_handler =>
    simp only [stepM]
    split
    · exact h
    · exact h
  case llm_call => exact h
  case interrupt_handler =>
    simp only [stepM]
    split
    · exact h
    · exact h
  case done => exact h
  case crashed => exact h

theorem stepB_cd (o : StepOracleB) (c : NodeB × BState)
    (h : cdOkB c.2.classification_decision) :
    cdOkB (stepB o c).2.classification_decision := by
  obtain ⟨n, st⟩ := c
  cases n
  case triage_router =>
    rcases triageRouterNodeBasic_cd o.jsonParse o.triageLLM st.email_input with h' | h' | h' <;>
      simp [stepB, mergeCD, h', cdOkB]
  case llm_call =>
    simp only [stepB]
    split
    · exact h
    · exact h
  case environment => exact h
  case done => exact h
  case crashed => exact h

/-- C4 (amended): in every reachable state of the basic workflow,
`classification_decision` is unset or one of `ignore`, `respond`,
`notify`; in every reachable state of the HITL and HITL+memory workflows
it is unset or one of the four values `ignore`, `respond`, `notify`,
`error` of the HITL state enum — the triage router's catch branch writes
the fourth value `error`. -/
theorem c4_classification_values :
    (∀ (inp : Option EmailData) (c : NodeH × HState), ReachH inp c →
      cdOkH c.2.classification_decision)
    ∧ (∀ (inp : Option EmailInput) (c : NodeB × BState), ReachB inp c →
      cdOkB c.2.classification_decision)
    ∧ (∀ (inp : Option EmailInput) (store0 : Store) (c : NodeM × MState),
      ReachM inp store0 c → cdOkH c.2.classification_decision) := by
  refine ⟨?_, ?_, ?_⟩
  · intro inp c h
    induction h with
    | init => exact Or.inl rfl
    | step o hc ih => exact stepH_cd o _ ih
  · intro inp c h
    induction h with
    | init => exact Or.inl rfl
    | step o hc ih => exact stepB_cd o _ ih
  · intro inp store0 c h
    induction h with
    | init => exact Or.inl rfl
    | step o hc ih => exact stepM_cd o _ ih

/-- Witness for C4 at the initial configurations of the three machines. -/
theorem c4_classification_values_witness :
    cdOkH ((⟨[], some emailFixture, none⟩ : HState).classification_decision)
    ∧ cdOkB ((⟨[], none, none⟩ : BState).classification_decision)
    ∧ cdOkH ((⟨[], none, none, []⟩ : MState).classification_decision) :=
  ⟨c4_classification_values.1 (some emailFixture) _ ReachH.init,
    c4_classification_values.2.1 none _ ReachB.init,
    c4_classification_values.2.2 none [] _ ReachM.init⟩

/-- The oracle that makes the HITL triage LLM call throw. -/
def failingOracle : StepOracle :=
  ⟨.error "LLM unavailable", .ok (humanMsg "x"), ⟨"ignore", .null⟩, toolEnvFixture, 0⟩

/-- The state reached after one step of the HITL workflow when the
triage LLM call throws. -/
def errStateFixture : HState :=
  ⟨[systemMsg "Error in triage router: LLM unavailable"], some emailFixture, some "error"⟩

/-- Counterexample to C4 as stated: the HITL workflow reaches a state
whose `classification_decision` is set but is none of the three claimed
enum values — the catch branch of the triage router sets it to
`error`. -/
theorem c4_counterexample :
    ReachH (some emailFixture) (.done, errStateFixture)
    ∧ errStateFixture.classification_decision ≠ none
    ∧ errStateFixture.classification_decision ≠ some "ignore"
    ∧ errStateFixture.classification_decision ≠ some "respond"
    ∧ errStateFixture.classification_decision ≠ some "notify" := by
  refine ⟨?_, by decide, by decide, by decide, by decide⟩
  have h0 : ReachH (some emailFixture) (NodeH.triage_router, ⟨[], some emailFixture, none⟩) :=
    ReachH.init
  have h := ReachH.step failingOracle h0
  have he : stepH failingOracle (NodeH.triage_router, ⟨[], some emailFixture, none⟩)
      = (NodeH.done, errStateFixture) := by decide
  rw [he] at h
  exact h

/-- C5: every error thrown inside a triage router body — an
email-parsing failure (non-object `email_input`) or a thrown LLM call —
is caught: the node still returns a `Command` (the router models are
total functions), a fallback classification and an explanatory system
message are written to the state, and the goto is `END`.  The basic
router falls back to classification `ignore`; the HITL and memory
routers fall back to `error`.  The LLM oracle is consumed once: there is
no retry. -/
theorem c5_triage_errors_swallowed (e : String) :
    (∀ llm, triageRouterNode llm none = routerCatch "Failed to parse email")
    ∧ (∀ ed, triageRouterNode (.error e) (some ed) = routerCatch e)
    ∧ (∀ jp llm, triageRouterNodeBasic jp llm none =
        basicRouterCatch "Cannot use in operator to search for author in undefined")
    ∧ (∀ jp ei, triageRouterNodeBasic jp (.error e) (some ei) = basicRouterCatch e)
    ∧ (∀ store fault dflt llm, createTriageRouterNode store fault dflt llm none =
        (routerCatch "Cannot use in operator to search for author in undefined", store))
    ∧ (∀ store fault dflt ei, createTriageRouterNode store fault dflt (.error e) (some ei) =
        (routerCatch e,
          (getMemory store ["email_assistant", "triage_preferences"] dflt fault).2))
    ∧ routerCatch e =
        ⟨.endNode, some "error", [systemMsg ("Error in triage router: " ++ e)]⟩
    ∧ basicRouterCatch e =
        ⟨.endNode, some "ignore", [systemMsg ("Error processing email: " ++ e)]⟩ := by
  refine ⟨fun llm => rfl, fun ed => rfl, fun jp llm => rfl, fun jp ei => ?_,
    fun store fault dflt llm => rfl, fun store fault dflt ei => ?_, rfl, rfl⟩
  · simp [triageRouterNodeBasic, parseEmailLibE]
  · simp [createTriageRouterNode, parseEmailLibE]

/-! ### Store lemmas (for C6/C7) -/

theorem storeGet_storePut_same (s : Store) (ns : List String) (k v : String) :
    storeGet (storePut s ns k v) ns k = some v := by
  simp [storeGet, storePut]

theorem storeGet_storePut_other (s : Store) (ns ns' : List String) (k k' v : String)
    (h : (ns', k') ≠ (ns, k)) :
    storeGet (storePut s ns k v) ns' k' = storeGet s ns' k' := by
  have hne : ¬((ns, k) = (ns', k')) := fun he => h he.symm
  simp only [storeGet, storePut, List.find?_cons]
  rw [decide_eq_false hne]

/-- C6: `getMemory` returns the value stored under
`(namespace, "user_preferences")` when the lookup finds one, leaving the
store unchanged; when no value exists, or the lookup throws
(`getFault`), it writes the default content into the store under that
namespace and key and returns the default content. -/
theorem c6_getMemory (store : Store) (ns : List String) (d : String) :
    (∀ v, storeGet store ns "user_preferences" = some v →
      getMemory store ns d false = (v, store))
    ∧ (storeGet store ns "user_preferences" = none →
      getMemory store ns d false = (d, storePut store ns "user_preferences" d)
      ∧ storeGet (getMemory store ns d false).2 ns "user_preferences" = some d)
    ∧ (getMemory store ns d true = (d, storePut store ns "user_preferences" d)
      ∧ storeGet (getMemory store ns d true).2 ns "user_preferences" = some d) := by
  refine ⟨?_, ?_, ?_⟩
  · intro v hv
    simp [getMemory, hv]
  · intro hv
    constructor
    · simp [getMemory, hv]
    · simp [getMemory, hv, storeGet_storePut_same]
  · constructor
    · simp [getMemory]
    · simp [getMemory, storeGet_storePut_same]

/-- Witness for C6 on a concrete one-entry store: a hit returns the
stored value and leaves the store unchanged. -/
theorem c6_getMemory_witness :
    storeGet [((["email_assistant", "triage_preferences"], "user_preferences"), "stored")]
      ["email_assistant", "triage_preferences"] "user_preferences" = some "stored"
    ∧ getMemory
        [((["email_assistant", "triage_preferences"], "user_preferences"), "stored")]
        ["email_assistant", "triage_preferences"] "default" false =
      ("stored",
        [((["email_assistant", "triage_preferences"], "user_preferences"), "stored")]) :=
  ⟨by decide,
    (c6_getMemory
      [((["email_assistant", "triage_preferences"], "user_preferences"), "stored")]
      ["email_assistant", "triage_preferences"] "default").1 "stored" (by decide)⟩

/-- C7: a successful `updateMemory` replaces the blob stored under
`(namespace, "user_preferences")` wholesale with the `preferences`
string produced by the LLM call, and changes no other
`(namespace, key)` entry; a failed update (lookup fault or thrown LLM
call) leaves the store unchanged. -/
theorem c7_updateMemory_frame (store : Store) (ns : List String) (prefs : String) :
    (storeGet (updateMemory store ns false (.ok prefs)) ns "user_preferences" = some prefs)
    ∧ (∀ (ns' : List String) (k' : String), (ns', k') ≠ (ns, "user_preferences") →
      storeGet (updateMemory store ns false (.ok prefs)) ns' k' = storeGet store ns' k')
    ∧ (∀ llm, updateMemory store ns true llm = store)
    ∧ (∀ err, updateMemory store ns false (.error err) = store) := by
  refine ⟨?_, ?_, fun llm => rfl, fun err => rfl⟩
  · simp [updateMemory, storeGet_storePut_same]
  · intro ns' k' h
    simp only [updateMemory]
    exact storeGet_storePut_other store ns ns' "user_preferences" k' prefs h

/-- Witness for C7: updating one namespace leaves a second namespace's
entry unchanged. -/
theorem c7_updateMemory_frame_witness :
    ((["email_assistant", "cal_preferences"], "user_preferences") : List String × String)
      ≠ ((["email_assistant", "response_preferences"], "user_preferences"))
    ∧ storeGet
        (updateMemory [((["email_assistant", "cal_preferences"], "user_preferences"), "cal")]
          ["email_assistant", "response_preferences"] false (.ok "new prefs"))
        ["email_assistant", "cal_preferences"] "user_preferences" =
      storeGet [((["email_assistant", "cal_preferences"], "user_preferences"), "cal")]
        ["email_assistant", "cal_preferences"] "user_preferences" :=
  ⟨by decide,
    (c7_updateMemory_frame
      [((["email_assistant", "cal_preferences"], "user_preferences"), "cal")]
      ["email_assistant", "response_preferences"] "new prefs").2.1
      ["email_assistant", "cal_preferences"] "user_preferences" (by decide)⟩

/-- C8 (amended): in the tool-review interrupt handler, `interrupt()` is
invoked only for the HITL tools (`write_email`, `schedule_meeting`,
`question`): every interrupted tool name is in `hitlTools`.  When the
processed (first) tool call of the message is not an HITL tool it is
executed directly in the same turn — no interrupt at all and the direct
execution of `execToolCall` — with the goto staying at `llm_call`;
remaining tool calls of the message are deferred, not paused on. -/
theorem c8_interrupt_only_for_hitl_tools (env : ToolEnv) (review : HumanResponse) (now : Nat)
    (email : Option EmailData) (msgs : List Msg) (r : HandlerResult)
    (hr : interruptHandlerNode env review now email msgs = .ok r) :
    (∀ n ∈ r.interrupts, n ∈ hitlTools)
    ∧ (∀ lm tc rest, msgs.getLast? = some lm → lm.role = "ai" →
        lm.tool_calls = tc :: rest → hitlTools.contains tc.name = false →
        r.interrupts = [] ∧ r.execs = (execToolCall env (callIdOf now tc) tc).2
          ∧ r.goto = .llm_call) := by
  constructor
  · intro n hn
    unfold interruptHandlerNode at hr
    split at hr
    · exact absurd hr (by simp)
    · split at hr
      · simp only [Except.ok.injEq] at hr
        subst hr
        cases hn
      · split at hr
        · simp only [Except.ok.injEq] at hr
          subst hr
          cases hn
        · split at hr
          · simp only [Except.ok.injEq] at hr
            subst hr
            cases hn
          · rename_i tc rest heq2 hhitl
            have hmem : tc.name ∈ hitlTools := by simpa using hhitl
            split at hr
            · exact absurd hr (by simp)
            · repeat' split at hr
              all_goals first
                | (simp only [Except.ok.injEq] at hr; subst hr;
                   simp only [List.mem_singleton] at hn; subst hn; exact hmem)
                | exact Except.noConfusion hr
  · intro lm tc rest hl hrole hcalls hnot
    simp only [interruptHandlerNode, hl] at hr
    rw [hcalls] at hr
    simp only [hrole, beq_self_eq_true, Bool.not_true, List.isEmpty_cons, Bool.or_self,
      Bool.false_or, Bool.or_false, Bool.false_eq_true, if_false] at hr
    simp only [hnot, Bool.not_false, if_true, Except.ok.injEq] at hr
    subst hr
    exact ⟨rfl, rfl, rfl⟩

/-- Witness for C8: a non-HITL head tool call is executed directly with
no interrupt. -/
theorem c8_interrupt_only_for_hitl_tools_witness :
    (∀ n ∈ twoCallResult.interrupts, n ∈ hitlTools)
    ∧ twoCallResult.interrupts = []
    ∧ twoCallResult.execs =
        (execToolCall toolEnvFixture
          (callIdOf 0 ⟨"check_calendar_availability", .obj ⟨"a1"⟩, some "call-A"⟩)
          ⟨"check_calendar_availability", .obj ⟨"a1"⟩, some "call-A"⟩).2
    ∧ twoCallResult.goto = .llm_call :=
  have h := c8_interrupt_only_for_hitl_tools toolEnvFixture ⟨"accept", .null⟩ 0
    (some emailFixture) [twoCallMsg] twoCallResult (by decide)
  ⟨h.1,
    h.2 twoCallMsg ⟨"check_calendar_availability", .obj ⟨"a1"⟩, some "call-A"⟩
      [⟨"write_email", .obj ⟨"a2"⟩, some "call-B"⟩] rfl rfl rfl (by decide)⟩

/-- A last message with two non-HITL tool calls (distinct ids). -/
def twoDirectMsg : Msg :=
  { role := "ai", content := "",
    tool_calls := [⟨"check_calendar_availability", .obj ⟨"a1"⟩, some "call-A"⟩,
      ⟨"check_calendar_availability", .obj ⟨"a2"⟩, some "call-B"⟩] }

/-- Counterexample to C8 as stated: with two non-HITL tool calls in the
message, only the first is executed in the turn; the second — also
non-HITL — is deferred with a placeholder rather than executed, so not
every non-HITL tool call is executed directly in the same turn. -/
theorem c8_counterexample :
    interruptHandlerNode toolEnvFixture ⟨"accept", .null⟩ 0 (some emailFixture) [twoDirectMsg]
      = .ok ⟨.llm_call,
          [toolMsg "ok" "call-A",
            toolMsg "Tool execution deferred or pending subsequent review step." "call-B"],
          [⟨"check_calendar_availability", ⟨"a1"⟩⟩], []⟩
    ∧ hitlTools.contains "check_calendar_availability" = false
    ∧ (∀ ex ∈ ([⟨"check_calendar_availability", ⟨"a1"⟩⟩] : List ToolExec),
        ex.args ≠ ⟨"a2"⟩) := by
  decide

/-- C9: the basic and HITL triage routers diverge on unrecognized
classifier output.  For a response text that contains none of the three
keywords (lowercased, trimmed) and is not parseable as JSON with a valid
`classification` field, the basic router classifies `ignore` and goes to
`END`, while the HITL router classifies `notify` and routes to the
triage interrupt handler. -/
theorem c9_basic_hitl_divergence (jp : String → Except String RouterJson) (text : String)
    (eb : EmailInput) (eh : EmailData)
    (hno_r : strContains (jsTrim (jsToLower text)) "respond" = false)
    (hno_n : strContains (jsTrim (jsToLower text)) "notify" = false)
    (hno_i : strContains (jsTrim (jsToLower text)) "ignore" = false)
    (hjson : ∀ j, jp text = .ok j → ∀ c, j.classification = some c →
      (["ignore", "respond", "notify"] : List String).contains c = false) :
    triageRouterNodeBasic jp (.ok text) (some eb) = ⟨.endNode, some "ignore", []⟩
    ∧ triageRouterNode (.ok text) (some eh) = ⟨.triage_interrupt_handler, some "notify", []⟩ := by
  constructor
  · have hb : basicClassify jp text = "ignore" := by
      unfold basicClassify
      cases hjp : jp text with
      | error e => rfl
      | ok j =>
        cases hcl : j.classification with
        | none => simp [hcl]
        | some c =>
          have hc' : ¬(c = "ignore" ∨ c = "respond" ∨ c = "notify") := by
            simpa using hjson j hjp c hcl
          simp [hcl, hc']
    simp [triageRouterNodeBasic, parseEmailLibE, hb]
  · have hh : hitlClassify text = "notify" := by
      unfold hitlClassify
      simp [hno_r, hno_n, hno_i]
    simp [triageRouterNode, parseEmailSrc, hh]

/-- Witness for C9 at the concrete response text "unclear output". -/
theorem c9_basic_hitl_divergence_witness :
    strContains (jsTrim (jsToLower "unclear output")) "respond" = false
    ∧ triageRouterNodeBasic (fun _ => .error "Unexpected token u in JSON")
        (.ok "unclear output") (some []) = ⟨.endNode, some "ignore", []⟩
    ∧ triageRouterNode (.ok "unclear output") (some emailFixture) =
        ⟨.triage_interrupt_handler, some "notify", []⟩ :=
  have h := c9_basic_hitl_divergence (fun _ => .error "Unexpected token u in JSON")
    "unclear output" [] emailFixture (by decide) (by decide) (by decide)
    (fun j hj => by cases hj)
  ⟨by decide, h.1, h.2⟩

/-! ### C10: the shared multi-schema email parser -/

theorem orJs_truthy_right (a b : JsVal) (hb : truthyJs b = true) :
    truthyJs (orJs a b) = true := by
  unfold orJs
  split
  · assumption
  · exact hb

theorem orJs_of_falsy (a b : JsVal) (ha : truthyJs a = false) : orJs a b = b := by
  unfold orJs
  simp [ha]

/-- C10 (amended): `parseEmailLib` is a total function returning a
4-tuple for every object input.  When the input matches the standard,
Gmail, or direct-API schema, the schema's raw fields are returned as-is
(missing auxiliary fields stay `undefined` — they are not defaulted).
Only when no schema matches do the fallbacks apply: every component is
then truthy, and a component all of whose source fields are absent or
falsy equals the corresponding default string (`Unknown Sender`,
`Unknown Recipient`, `No Subject`, `No content available`). -/
theorem c10_parse_email_total_fallbacks (e : EmailInput) :
    ((hasField e "author" && hasField e "email_thread") = true →
      parseEmailLib e = (getField e "author", getField e "to", getField e "subject",
        getField e "email_thread"))
    ∧ ((hasField e "author" && hasField e "email_thread") = false →
       (hasField e "from_email" && hasField e "page_content") = true →
      parseEmailLib e = (getField e "from_email", getField e "to_email", getField e "subject",
        getField e "page_content"))
    ∧ ((hasField e "author" && hasField e "email_thread") = false →
       (hasField e "from_email" && hasField e "page_content") = false →
       (hasField e "from" && hasField e "body") = true →
      parseEmailLib e = (getField e "from", getField e "to", getField e "subject",
        getField e "body"))
    ∧ ((hasField e "author" && hasField e "email_thread") = false →
       (hasField e "from_email" && hasField e "page_content") = false →
       (hasField e "from" && hasField e "body") = false →
        truthyJs (parseEmailLib e).1 = true
        ∧ truthyJs (parseEmailLib e).2.1 = true
        ∧ truthyJs (parseEmailLib e).2.2.1 = true
        ∧ truthyJs (parseEmailLib e).2.2.2 = true
        ∧ (truthyJs (getField e "author") = false →
            truthyJs (getField e "from_email") = false →
            truthyJs (getField e "from") = false →
            (parseEmailLib e).1 = .vstr "Unknown Sender")
        ∧ (truthyJs (getField e "to") = false → truthyJs (getField e "to_email") = false →
            (parseEmailLib e).2.1 = .vstr "Unknown Recipient")
        ∧ (truthyJs (getField e "subject") = false →
            (parseEmailLib e).2.2.1 = .vstr "No Subject")
        ∧ (truthyJs (getField e "email_thread") = false →
            truthyJs (getField e "page_content") = false →
            truthyJs (getField e "body") = false →
            truthyJs (getField e "content") = false →
            (parseEmailLib e).2.2.2 = .vstr "No content available")) := by
  refine ⟨?_, ?_, ?_, ?_⟩
  · intro h1
    simp [parseEmailLib, h1]
  · intro h1 h2
    simp [parseEmailLib, h1, h2]
  · intro h1 h2 h3
    simp [parseEmailLib, h1, h2, h3]
  · intro h1 h2 h3
    have hp : parseEmailLib e =
        (orJs (getField e "author") (orJs (getField e "from_email")
            (orJs (getField e "from") (.vstr "Unknown Sender"))),
          orJs (getField e "to") (orJs (getField e "to_email") (.vstr "Unknown Recipient")),
          orJs (getField e "subject") (.vstr "No Subject"),
          orJs (getField e "email_thread") (orJs (getField e "page_content")
            (orJs (getField e "body") (orJs (getField e "content")
              (.vstr "No content available"))))) := by
      simp [parseEmailLib, h1, h2, h3]
    rw [hp]
    refine ⟨?_, ?_, ?_, ?_, ?_, ?_, ?_, ?_⟩
    · exact orJs_truthy_right _ _ (orJs_truthy_right _ _ (orJs_truthy_right _ _ rfl))
    · exact orJs_truthy_right _ _ (orJs_truthy_right _ _ rfl)
    · exact orJs_truthy_right _ _ rfl
    · exact orJs_truthy_right _ _ (orJs_truthy_right _ _ (orJs_truthy_right _ _
        (orJs_truthy_right _ _ rfl)))
    · intro f1 f2 f3
      rw [orJs_of_falsy _ _ f1, orJs_of_falsy _ _ f2, orJs_of_falsy _ _ f3]
    · intro f1 f2
      rw [orJs_of_falsy _ _ f1, orJs_of_falsy _ _ f2]
    · intro f1
      rw [orJs_of_falsy _ _ f1]
    · intro f1 f2 f3 f4
      rw [orJs_of_falsy _ _ f1, orJs_of_falsy _ _ f2, orJs_of_falsy _ _ f3,
        orJs_of_falsy _ _ f4]

/-- Witness for C10 on the empty object: no schema matches, and all four
components fall back to the default strings. -/
theorem c10_parse_email_total_fallbacks_witness :
    truthyJs (parseEmailLib ([] : EmailInput)).1 = true
    ∧ (parseEmailLib ([] : EmailInput)).1 = .vstr "Unknown Sender"
    ∧ (parseEmailLib ([] : EmailInput)).2.1 = .vstr "Unknown Recipient" :=
  have h := (c10_parse_email_total_fallbacks ([] : EmailInput)).2.2.2 rfl rfl rfl
  ⟨h.1, h.2.2.2.2.1 rfl rfl rfl, h.2.2.2.2.2.1 rfl rfl⟩

/-- An input matching the standard schema but missing its `to` and
`subject` fields. -/
def stdPartialInput : EmailInput := [("author", .vstr "alice"), ("email_thread", .vstr "hi")]

/-- Counterexample to C10 as stated: on an input that matches the
standard schema but lacks `to` and `subject`, the parser returns
`undefined` for those components instead of falling back to
`Unknown Recipient` / `No Subject`. -/
theorem c10_counterexample :
    parseEmailLib stdPartialInput = (.vstr "alice", .vundefined, .vundefined, .vstr "hi")
    ∧ (JsVal.vundefined ≠ JsVal.vstr "Unknown Recipient")
    ∧ (JsVal.vundefined ≠ JsVal.vstr "No Subject") := by
  decide

end EmailAssistant
